import Mathlib

/-!
Shallow embedding of appgym/web_env.py and proofs about it.

The source file defines a coverage reducer (CoverageReporter), a click-grid
generator (WebEnv._actions), a screenshot crop (WebEnv._screenshot), a
content-selector default (WebEnv.__init__), the reset/step orchestration
(WebEnv.reset, WebEnv.step) and a JS selector builder (fullPath inside
WebEnv._elements).  Numbers coming from the browser (viewport coordinates)
are modelled as rationals; Python float arithmetic on the small values
involved is exact.  Fallible Python operations (ZeroDivisionError on a
zero-statement coverage map, TypeError on non-integer numpy slice indices)
are modelled with Except.
-/

/-- Rect = namedtuple(x, y, width, height): floating-point page coordinates. -/
structure PyRect where
  x : ℚ
  y : ℚ
  width : ℚ
  height : ℚ
deriving DecidableEq, Repr

/-- Action = namedtuple(x, y, type): integer click-target coordinates. -/
structure PyAction where
  x : ℤ
  y : ℤ
  type : String
deriving DecidableEq, Repr

/-- One file entry of the coverage map: the field s maps statement ids to
execution counts.  Modelled as an association list (statement id, count);
the summary only reads the values, so key uniqueness is immaterial. -/
structure FileCov where
  s : List (ℕ × ℕ)
deriving DecidableEq, Repr

/-- The coverage map window.__coverage__: file name to file entry. -/
abbrev CoverageData := List (String × FileCov)

/-- CoverageReporter._file_summary: Counter over the statement-hit values;
returns (number of zero counts, total number of statements). -/
def CoverageReporter.file_summary (statement_coverage : List (ℕ × ℕ)) : ℕ × ℕ :=
  let vals := statement_coverage.map Prod.snd
  (vals.count 0, vals.length)

/-- CoverageReporter.summary: sums the per-file (not_covered, stmts) pairs and
returns 1.0 - not_covered / stmts.  Python raises ZeroDivisionError when the
total statement count is zero; modelled as Except.error. -/
def CoverageReporter.summary (coverage_data : CoverageData) : Except String ℚ :=
  let cov := coverage_data.map (fun v => CoverageReporter.file_summary v.2.s)
  let not_covered := (cov.map Prod.fst).sum
  let stmts := (cov.map Prod.snd).sum
  if stmts = 0 then Except.error "ZeroDivisionError"
  else Except.ok (1 - (not_covered : ℚ) / (stmts : ℚ))

/-- Total statement count of a coverage map, as the claims phrase it. -/
def totalStmts (coverage_data : CoverageData) : ℕ :=
  (coverage_data.map (fun v => v.2.s.length)).sum

/-- Total number of statements with execution count 0, as the claims phrase it. -/
def totalNotCovered (coverage_data : CoverageData) : ℕ :=
  (coverage_data.map (fun v => (v.2.s.map Prod.snd).count 0)).sum

/-- The concrete map {fileA: {s:{0:1,1:0,2:5}}, fileB: {s:{0:0}}}. -/
def exampleCov : CoverageData :=
  [("fileA", ⟨[(0, 1), (1, 0), (2, 5)]⟩), ("fileB", ⟨[(0, 0)]⟩)]

lemma summary_sums (coverage_data : CoverageData) :
    CoverageReporter.summary coverage_data =
      if totalStmts coverage_data = 0 then Except.error "ZeroDivisionError"
      else Except.ok (1 - (totalNotCovered coverage_data : ℚ) / (totalStmts coverage_data : ℚ)) := by
  unfold CoverageReporter.summary totalStmts totalNotCovered CoverageReporter.file_summary
  simp [List.map_map, Function.comp_def]

/-- C2: whenever the coverage map contains at least one statement in total,
summary returns 1 - totalNotCovered / totalStmts; on the concrete example map
it returns 0.5. -/
theorem summary_covered_fraction (coverage_data : CoverageData)
    (h : totalStmts coverage_data ≠ 0) :
    CoverageReporter.summary coverage_data =
      Except.ok (1 - (totalNotCovered coverage_data : ℚ) / (totalStmts coverage_data : ℚ)) ∧
    CoverageReporter.summary exampleCov = Except.ok (1 / 2) := by
  constructor
  · rw [summary_sums, if_neg h]
  · norm_num [CoverageReporter.summary, CoverageReporter.file_summary, exampleCov]

/-- C2 witness: the general part of summary_covered_fraction applied to the example map. -/
theorem summary_covered_fraction_inst :
    totalStmts exampleCov ≠ 0 ∧
    CoverageReporter.summary exampleCov =
      Except.ok (1 - (totalNotCovered exampleCov : ℚ) / (totalStmts exampleCov : ℚ)) :=
  ⟨by decide, (summary_covered_fraction exampleCov (by decide)).1⟩

/-- C4: on a coverage map with zero instrumented statements in total
(including the empty map), summary fails with ZeroDivisionError; in
particular it never returns an ok value. -/
theorem summary_degenerate (coverage_data : CoverageData)
    (h : totalStmts coverage_data = 0) :
    CoverageReporter.summary coverage_data = Except.error "ZeroDivisionError" ∧
    ∀ q : ℚ, CoverageReporter.summary coverage_data ≠ Except.ok q := by
  rw [summary_sums, if_pos h]
  exact ⟨rfl, fun q hq => by exact Except.noConfusion hq⟩

/-- C4 witness: the empty coverage map has zero statements and summary fails
on it. -/
theorem summary_degenerate_inst :
    totalStmts ([] : CoverageData) = 0 ∧
    CoverageReporter.summary ([] : CoverageData) = Except.error "ZeroDivisionError" :=
  ⟨by decide, (summary_degenerate [] (by decide)).1⟩

/-- C8 counterexample: the map {fileA: {s:{}}} is a non-empty coverage map in
which (vacuously) every statement has a nonzero execution count, yet summary
raises ZeroDivisionError instead of returning 1.0. -/
theorem summary_allcovered_cex :
    ([("fileA", (⟨[]⟩ : FileCov))] : CoverageData) ≠ [] ∧
    (([("fileA", (⟨[]⟩ : FileCov))] : CoverageData).all
      (fun v => v.2.s.all (fun p => p.2 != 0))) = true ∧
    CoverageReporter.summary [("fileA", ⟨[]⟩)] = Except.error "ZeroDivisionError" := by
  refine ⟨by decide, by decide, ?_⟩
  rfl

/-- C8 amended: for every coverage map containing at least one statement in
total, summary returns exactly 1 when every statement has a nonzero execution
count, and exactly 0 when every statement has execution count 0. -/
theorem summary_extremes (coverage_data : CoverageData)
    (h : totalStmts coverage_data ≠ 0) :
    ((∀ v ∈ coverage_data, ∀ p ∈ v.2.s, p.2 ≠ 0) →
      CoverageReporter.summary coverage_data = Except.ok 1) ∧
    ((∀ v ∈ coverage_data, ∀ p ∈ v.2.s, p.2 = 0) →
      CoverageReporter.summary coverage_data = Except.ok 0) := by
  constructor
  · intro hall
    have hnc : totalNotCovered coverage_data = 0 := by
      unfold totalNotCovered
      apply List.sum_eq_zero
      intro x hx
      simp only [List.mem_map] at hx
      obtain ⟨v, hv, rfl⟩ := hx
      rw [List.count_eq_zero]
      simp only [List.mem_map, not_exists]
      rintro p ⟨hp, h0⟩
      exact hall v hv p hp h0
    rw [summary_sums, if_neg h, hnc]
    norm_num
  · intro hall
    have hnc : totalNotCovered coverage_data = totalStmts coverage_data := by
      unfold totalNotCovered totalStmts
      congr 1
      apply List.map_congr_left
      intro v hv
      rw [List.count_eq_length.mpr, List.length_map]
      intro b hb
      simp only [List.mem_map] at hb
      obtain ⟨p, hp, rfl⟩ := hb
      exact (hall v hv p hp).symm
    have hts : (totalStmts coverage_data : ℚ) ≠ 0 := Nat.cast_ne_zero.mpr h
    rw [summary_sums, if_neg h, hnc, div_self hts]
    norm_num

/-- C8 witness: summary_extremes applied to a one-statement fully covered map
and to a one-statement fully uncovered map. -/
theorem summary_extremes_inst :
    totalStmts [("a", (⟨[(0, 2)]⟩ : FileCov))] ≠ 0 ∧
    CoverageReporter.summary [("a", ⟨[(0, 2)]⟩)] = Except.ok 1 ∧
    CoverageReporter.summary [("a", ⟨[(0, 0)]⟩)] = Except.ok 0 :=
  ⟨by decide,
   (summary_extremes [("a", ⟨[(0, 2)]⟩)] (by decide)).1 (by decide),
   (summary_extremes [("a", ⟨[(0, 0)]⟩)] (by decide)).2 (by decide)⟩

/-- WebEnv.__init__: content_selector defaults to the string html when the
argument is falsy (None or the empty string), else is stored verbatim. -/
def WebEnv.initContentSelector (content_selector : Option String) : String :=
  match content_selector with
  | none => "html"
  | some s => if s = "" then "html" else s

/-- C9: None and the empty string both yield the stored selector html, and a
non-empty string is stored verbatim. -/
theorem contentSelector_default :
    WebEnv.initContentSelector none = "html" ∧
    WebEnv.initContentSelector (some "") = "html" ∧
    ∀ s : String, s ≠ "" → WebEnv.initContentSelector (some s) = s := by
  refine ⟨rfl, rfl, ?_⟩
  intro s hs
  simp [WebEnv.initContentSelector, hs]

/-- C9 witness: the non-empty-string part of contentSelector_default applied
to the string div. -/
theorem contentSelector_default_inst :
    ("div" : String) ≠ "" ∧ WebEnv.initContentSelector (some "div") = "div" :=
  ⟨by decide, contentSelector_default.2.2 "div" (by decide)⟩

/-- Python int() applied to a rational: truncation toward zero. -/
def pyInt (q : ℚ) : ℤ := if 0 ≤ q then ⌊q⌋ else ⌈q⌉

/-- WebEnv.CELL_SIZE = 20. -/
def WebEnv.CELL_SIZE : ℚ := 20

/-- WebEnv._actions with the cell size kept symbolic: cw = int(width / cell),
ch = int(height / cell), then the comprehension over cy in range(1, ch + 1)
(outer) and cx in range(1, cw + 1) (inner) emitting
Action(int(cx * cell - cell / 2), int(cy * cell - cell / 2), click). -/
def WebEnv.actionsGrid (viewport : PyRect) (cellSize : ℚ) : List PyAction :=
  let cw := pyInt (viewport.width / cellSize)
  let ch := pyInt (viewport.height / cellSize)
  (List.range ch.toNat).flatMap (fun (cy : ℕ) =>
    (List.range cw.toNat).map (fun (cx : ℕ) =>
      { x := pyInt (((cx : ℚ) + 1) * cellSize - cellSize / 2)
        y := pyInt (((cy : ℚ) + 1) * cellSize - cellSize / 2)
        type := "click" }))

/-- WebEnv._actions as called, with CELL_SIZE = 20 and the stored viewport. -/
def WebEnv.actions (viewport : PyRect) : List PyAction :=
  WebEnv.actionsGrid viewport WebEnv.CELL_SIZE

lemma range_flatMap_length {α : Type} (f : ℕ → ℕ → α) (R C : ℕ) :
    ((List.range R).flatMap (fun r => (List.range C).map (f r))).length = R * C := by
  simp [List.length_flatMap, Function.comp_def, Nat.mul_comm]

lemma range_flatMap_get {α : Type} (f : ℕ → ℕ → α) (C : ℕ) :
    ∀ (R i j : ℕ), i < R → j < C →
      ((List.range R).flatMap (fun r => (List.range C).map (f r)))[i * C + j]? =
        some (f i j) := by
  intro R
  induction R with
  | zero => intro i j hi _; omega
  | succ R ih =>
    intro i j hi hj
    rw [List.range_succ, List.flatMap_append]
    rcases Nat.lt_or_ge i R with hiR | hiR
    · rw [List.getElem?_append_left]
      · exact ih i j hiR hj
      · rw [range_flatMap_length]
        have h1 : i + 1 ≤ R := hiR
        calc i * C + j < (i + 1) * C := by ring_nf; omega
        _ ≤ R * C := Nat.mul_le_mul_right C h1
    · have hiR' : i = R := by omega
      subst hiR'
      rw [List.getElem?_append_right]
      · rw [range_flatMap_length]
        have h2 : i * C + j - i * C = j := by omega
        simp only [List.flatMap_cons, List.flatMap_nil, List.append_nil]
        rw [h2, List.getElem?_map, List.getElem?_range hj]
        rfl
      · rw [range_flatMap_length]
        omega

/-- C1: for a viewport with nonnegative width and height and a positive cell
size, the grid has exactly floor(w/c) * floor(h/c) actions; the action at
row-major linear index i * cols + j (rows outer) is the cell (j+1, i+1)
center, with coordinates col * c - c / 2 and row * c - c / 2 truncated to
integers; and the grid is empty when w < c or h < c. -/
theorem actionsGrid_spec (v : PyRect) (c : ℚ)
    (hw : 0 ≤ v.width) (hh : 0 ≤ v.height) (hc : 0 < c) :
    (WebEnv.actionsGrid v c).length = ⌊v.width / c⌋.toNat * ⌊v.height / c⌋.toNat ∧
    (∀ i j : ℕ, i < ⌊v.height / c⌋.toNat → j < ⌊v.width / c⌋.toNat →
      (WebEnv.actionsGrid v c)[i * ⌊v.width / c⌋.toNat + j]? =
        some ⟨pyInt (((j : ℚ) + 1) * c - c / 2), pyInt (((i : ℚ) + 1) * c - c / 2), "click"⟩) ∧
    ((v.width < c ∨ v.height < c) → WebEnv.actionsGrid v c = []) := by
  have hw' : pyInt (v.width / c) = ⌊v.width / c⌋ := if_pos (div_nonneg hw hc.le)
  have hh' : pyInt (v.height / c) = ⌊v.height / c⌋ := if_pos (div_nonneg hh hc.le)
  unfold WebEnv.actionsGrid
  dsimp only
  rw [hw', hh']
  refine ⟨?_, ?_, ?_⟩
  · rw [range_flatMap_length, Nat.mul_comm]
  · intro i j hi hj
    exact range_flatMap_get _ _ _ i j hi hj
  · rintro (hlt | hlt)
    · have h0 : ⌊v.width / c⌋ = 0 := by
        rw [Int.floor_eq_zero_iff]
        exact ⟨div_nonneg hw hc.le, (div_lt_one hc).mpr hlt⟩
      rw [h0]
      simp
    · have h0 : ⌊v.height / c⌋ = 0 := by
        rw [Int.floor_eq_zero_iff]
        exact ⟨div_nonneg hh hc.le, (div_lt_one hc).mpr hlt⟩
      rw [h0]
      simp

/-- C1 witness: the 100 by 100 viewport with cell size 20 has 25 actions and
its action at row index 2, column index 3 is the cell (4, 3) center (70, 50). -/
theorem actionsGrid_spec_inst :
    (0 : ℚ) ≤ 100 ∧ (0 : ℚ) < 20 ∧
    (WebEnv.actionsGrid ⟨0, 0, 100, 100⟩ 20).length =
      ⌊(100 : ℚ) / 20⌋.toNat * ⌊(100 : ℚ) / 20⌋.toNat ∧
    (WebEnv.actionsGrid ⟨0, 0, 100, 100⟩ 20)[2 * ⌊(100 : ℚ) / 20⌋.toNat + 3]? =
      some ⟨pyInt (((3 : ℕ) + 1 : ℚ) * 20 - 20 / 2),
            pyInt (((2 : ℕ) + 1 : ℚ) * 20 - 20 / 2), "click"⟩ :=
  ⟨by norm_num, by norm_num,
   (actionsGrid_spec ⟨0, 0, 100, 100⟩ 20 (by norm_num) (by norm_num) (by norm_num)).1,
   (actionsGrid_spec ⟨0, 0, 100, 100⟩ 20 (by norm_num) (by norm_num) (by norm_num)).2.1
     2 3 (by norm_num) (by norm_num)⟩

/-- The mutable fields of WebEnv set by reset and read by step: the measured
viewport and the stored coverage ratio. -/
structure EnvState where
  viewport : PyRect
  coverage : ℚ
deriving DecidableEq, Repr

/-- WebEnv.reset restricted to the owned state: the browser supplies the
measured viewport rectangle and the coverage map; reset stores both (the map
reduced by CoverageReporter.summary) and returns the action set computed from
the stored viewport.  The State observation (screenshot and elements) is
modelled by separate functions. -/
def WebEnv.resetEnv (measuredViewport : PyRect) (covData : CoverageData) :
    Except String (EnvState × List PyAction) :=
  match CoverageReporter.summary covData with
  | Except.error e => Except.error e
  | Except.ok c =>
      Except.ok ({ viewport := measuredViewport, coverage := c },
                 WebEnv.actions measuredViewport)

/-- WebEnv.step restricted to the owned state: the freshly measured coverage
map is the oracle input; step reduces it, computes reward = new - old, stores
the new coverage, and recomputes the action set from the stored viewport. -/
def WebEnv.stepEnv (st : EnvState) (covData : CoverageData) :
    Except String (EnvState × List PyAction × ℚ) :=
  match CoverageReporter.summary covData with
  | Except.error e => Except.error e
  | Except.ok newCov =>
      Except.ok ({ st with coverage := newCov },
                 WebEnv.actions st.viewport, newCov - st.coverage)

/-- A sequence of step calls, collecting every step result. -/
def WebEnv.runSteps (st : EnvState) :
    List CoverageData → Except String (List (EnvState × List PyAction × ℚ))
  | [] => Except.ok []
  | d :: ds =>
    match WebEnv.stepEnv st d with
    | Except.error e => Except.error e
    | Except.ok r =>
      match WebEnv.runSteps r.1 ds with
      | Except.error e => Except.error e
      | Except.ok rs => Except.ok (r :: rs)

/-- C3: a step from stored coverage summarize(before) with new measurement
summarize(after) = cA returns reward cA - cB exactly and stores cA. -/
theorem step_reward_delta (st : EnvState) (dBefore dAfter : CoverageData)
    (cB cA : ℚ)
    (_hB : CoverageReporter.summary dBefore = Except.ok cB)
    (hA : CoverageReporter.summary dAfter = Except.ok cA)
    (hst : st.coverage = cB) :
    WebEnv.stepEnv st dAfter =
      Except.ok ({ st with coverage := cA },
                 WebEnv.actions st.viewport, cA - cB) := by
  unfold WebEnv.stepEnv
  rw [hA, hst]

/-- C3 witness: stepping from full coverage to zero coverage yields the exact
negative reward 0 - 1 and stores 0 (no clamping). -/
theorem step_reward_delta_inst :
    CoverageReporter.summary [("a", (⟨[(0, 1)]⟩ : FileCov))] = Except.ok 1 ∧
    CoverageReporter.summary [("a", (⟨[(0, 0)]⟩ : FileCov))] = Except.ok 0 ∧
    WebEnv.stepEnv ⟨⟨0, 0, 40, 40⟩, 1⟩ [("a", ⟨[(0, 0)]⟩)] =
      Except.ok (⟨⟨0, 0, 40, 40⟩, 0⟩, WebEnv.actions ⟨0, 0, 40, 40⟩, 0 - 1) :=
  ⟨by norm_num [CoverageReporter.summary, CoverageReporter.file_summary],
   by norm_num [CoverageReporter.summary, CoverageReporter.file_summary],
   step_reward_delta ⟨⟨0, 0, 40, 40⟩, 1⟩ [("a", ⟨[(0, 1)]⟩)] [("a", ⟨[(0, 0)]⟩)] 1 0
     (by norm_num [CoverageReporter.summary, CoverageReporter.file_summary])
     (by norm_num [CoverageReporter.summary, CoverageReporter.file_summary])
     rfl⟩

lemma stepEnv_frame (st : EnvState) (d : CoverageData)
    (r : EnvState × List PyAction × ℚ) (h : WebEnv.stepEnv st d = Except.ok r) :
    r.1.viewport = st.viewport ∧ r.2.1 = WebEnv.actions st.viewport := by
  unfold WebEnv.stepEnv at h
  cases h1 : CoverageReporter.summary d with
  | error e => rw [h1] at h; exact absurd h (by simp)
  | ok c =>
    rw [h1] at h
    injection h with h
    subst h
    exact ⟨rfl, rfl⟩

lemma runSteps_frame :
    ∀ (ds : List CoverageData) (st : EnvState)
      (trace : List (EnvState × List PyAction × ℚ)),
      WebEnv.runSteps st ds = Except.ok trace →
      ∀ r ∈ trace, r.1.viewport = st.viewport ∧ r.2.1 = WebEnv.actions st.viewport := by
  intro ds
  induction ds with
  | nil =>
    intro st trace h r hr
    unfold WebEnv.runSteps at h
    injection h with h
    subst h
    cases hr
  | cons d ds ih =>
    intro st trace h r hr
    unfold WebEnv.runSteps at h
    cases h1 : WebEnv.stepEnv st d with
    | error e => rw [h1] at h; exact absurd h (by simp)
    | ok r1 =>
      rw [h1] at h
      dsimp only at h
      cases h2 : WebEnv.runSteps r1.1 ds with
      | error e => rw [h2] at h; exact absurd h (by simp)
      | ok rs =>
        rw [h2] at h
        injection h with h
        subst h
        have hstep := stepEnv_frame st d r1 h1
        cases List.mem_cons.mp hr with
        | inl heq => subst heq; exact hstep
        | inr hmem =>
          have hrest := ih r1.1 rs h2 r hmem
          rw [hstep.1] at hrest
          exact hrest

/-- C7: after a successful reset stores the viewport and returns action set
as0, every step result in any subsequent run leaves the stored viewport
unchanged and returns exactly as0 as its action set. -/
theorem viewport_stable (v : PyRect) (d0 : CoverageData) (st0 : EnvState)
    (as0 : List PyAction) (ds : List CoverageData)
    (trace : List (EnvState × List PyAction × ℚ))
    (hreset : WebEnv.resetEnv v d0 = Except.ok (st0, as0))
    (hrun : WebEnv.runSteps st0 ds = Except.ok trace) :
    ∀ r ∈ trace, r.1.viewport = st0.viewport ∧ r.2.1 = as0 := by
  unfold WebEnv.resetEnv at hreset
  cases h1 : CoverageReporter.summary d0 with
  | error e => rw [h1] at hreset; exact absurd hreset (by simp)
  | ok c =>
    rw [h1] at hreset
    injection hreset with hreset
    injection hreset with ha hb
    subst ha
    subst hb
    intro r hr
    exact runSteps_frame ds _ trace hrun r hr

/-- C7 witness: a concrete reset followed by one step; the step result keeps
the viewport and returns the reset action set. -/
theorem viewport_stable_inst :
    WebEnv.resetEnv ⟨0, 0, 40, 40⟩ [("a", (⟨[(0, 1)]⟩ : FileCov))] =
      Except.ok (⟨⟨0, 0, 40, 40⟩, 1⟩, WebEnv.actions ⟨0, 0, 40, 40⟩) ∧
    WebEnv.runSteps ⟨⟨0, 0, 40, 40⟩, 1⟩ [[("a", ⟨[(0, 0)]⟩)]] =
      Except.ok [(⟨⟨0, 0, 40, 40⟩, 0⟩, WebEnv.actions ⟨0, 0, 40, 40⟩, 0 - 1)] ∧
    ((⟨⟨0, 0, 40, 40⟩, 0⟩, WebEnv.actions ⟨0, 0, 40, 40⟩,
        (0 : ℚ) - 1) : EnvState × List PyAction × ℚ).1.viewport =
      (⟨⟨0, 0, 40, 40⟩, 1⟩ : EnvState).viewport ∧
    ((⟨⟨0, 0, 40, 40⟩, 0⟩, WebEnv.actions ⟨0, 0, 40, 40⟩,
        (0 : ℚ) - 1) : EnvState × List PyAction × ℚ).2.1 =
      WebEnv.actions ⟨0, 0, 40, 40⟩ := by
  have hreset : WebEnv.resetEnv ⟨0, 0, 40, 40⟩ [("a", (⟨[(0, 1)]⟩ : FileCov))] =
      Except.ok (⟨⟨0, 0, 40, 40⟩, 1⟩, WebEnv.actions ⟨0, 0, 40, 40⟩) := by
    norm_num [WebEnv.resetEnv, CoverageReporter.summary, CoverageReporter.file_summary]
  have hrun : WebEnv.runSteps ⟨⟨0, 0, 40, 40⟩, 1⟩ [[("a", ⟨[(0, 0)]⟩)]] =
      Except.ok [(⟨⟨0, 0, 40, 40⟩, 0⟩, WebEnv.actions ⟨0, 0, 40, 40⟩, 0 - 1)] := by
    norm_num [WebEnv.runSteps, WebEnv.stepEnv, CoverageReporter.summary,
      CoverageReporter.file_summary]
  have hmem := viewport_stable ⟨0, 0, 40, 40⟩ [("a", ⟨[(0, 1)]⟩)]
    ⟨⟨0, 0, 40, 40⟩, 1⟩ (WebEnv.actions ⟨0, 0, 40, 40⟩) [[("a", ⟨[(0, 0)]⟩)]]
    [(⟨⟨0, 0, 40, 40⟩, 0⟩, WebEnv.actions ⟨0, 0, 40, 40⟩, 0 - 1)]
    hreset hrun
    (⟨⟨0, 0, 40, 40⟩, 0⟩, WebEnv.actions ⟨0, 0, 40, 40⟩, 0 - 1)
    (List.mem_singleton.mpr rfl)
  exact ⟨hreset, hrun, hmem.1, hmem.2⟩

/-- Python slice-endpoint resolution for a sequence of length n: a negative
endpoint counts from the end, then the endpoint is clamped into [0, n]. -/
def pyResolveIndex (n : ℕ) (i : ℤ) : ℕ :=
  if i < 0 then ((n : ℤ) + i).toNat else min i.toNat n

/-- Python sequence slicing l[a:b]. -/
def pySlice {α : Type} (l : List α) (a b : ℤ) : List α :=
  (l.take (pyResolveIndex l.length b)).drop (pyResolveIndex l.length a)

/-- WebEnv._screenshot: the decoded image is sliced as
img[v.y : v.y + v.height, v.x : v.x + v.width].  numpy raises TypeError when
a slice index is not an integer (the measured rectangle is float-valued and
an integral JSON number arrives as a Python int, a fractional one as a
float); integer slice endpoints clip silently at the array bounds.  A pixel
row is a List α so the channel dimension is absorbed in α. -/
def WebEnv.screenshotCrop {α : Type} (img : List (List α)) (v : PyRect) :
    Except String (List (List α)) :=
  if v.x.den = 1 ∧ v.y.den = 1 ∧ v.width.den = 1 ∧ v.height.den = 1 then
    Except.ok ((pySlice img v.y.num (v.y.num + v.height.num)).map
      (fun row => pySlice row v.x.num (v.x.num + v.width.num)))
  else Except.error "TypeError"

lemma pySlice_length {α : Type} (l : List α) (a b : ℤ) (ha : 0 ≤ a) (hb : 0 ≤ b) :
    (pySlice l a b).length = min b.toNat l.length - min a.toNat l.length := by
  unfold pySlice pyResolveIndex
  rw [if_neg (not_lt.mpr ha), if_neg (not_lt.mpr hb)]
  simp [List.length_drop, List.length_take]

lemma pySlice_mem {α : Type} {x : α} {l : List α} {a b : ℤ}
    (h : x ∈ pySlice l a b) : x ∈ l :=
  List.mem_of_mem_take (List.mem_of_mem_drop h)

/-- C10: the stored viewport fields are used directly as pixel slice indices,
so the crop succeeds exactly when x, y, width and height are all integral;
with any fractional field it raises TypeError instead of rounding. -/
theorem crop_fractional_fails {α : Type} (img : List (List α)) (v : PyRect)
    (h : ¬(v.x.den = 1 ∧ v.y.den = 1 ∧ v.width.den = 1 ∧ v.height.den = 1)) :
    WebEnv.screenshotCrop img v = Except.error "TypeError" ∧
    ∀ r, WebEnv.screenshotCrop img v ≠ Except.ok r := by
  unfold WebEnv.screenshotCrop
  rw [if_neg h]
  exact ⟨rfl, fun r hr => Except.noConfusion hr⟩

/-- C10 witness: a viewport of width 5/2 makes the crop fail with TypeError. -/
theorem crop_fractional_fails_inst :
    ¬((0 : ℚ).den = 1 ∧ (0 : ℚ).den = 1 ∧ (5 / 2 : ℚ).den = 1 ∧ (2 : ℚ).den = 1) ∧
    WebEnv.screenshotCrop [[(0 : ℕ)]] ⟨0, 0, 5 / 2, 2⟩ = Except.error "TypeError" :=
  ⟨by norm_num, (crop_fractional_fails [[(0 : ℕ)]] ⟨0, 0, 5 / 2, 2⟩ (by norm_num)).1⟩

/-- C5 counterexample: a 2 by 2 image cropped with an integral viewport of
width 3 and height 3 does not fail; numpy slicing silently clips and returns
the 2 by 2 image, not an image of the requested dimensions (3, 3). -/
theorem crop_oob_clips_cex :
    WebEnv.screenshotCrop [[(0 : ℕ), 0], [0, 0]] ⟨0, 0, 3, 3⟩ =
      Except.ok [[0, 0], [0, 0]] ∧
    ([[(0 : ℕ), 0], [0, 0]] : List (List ℕ)).length = 2 :=
  ⟨rfl, rfl⟩

/-- C5 amended: for an integral viewport the crop always succeeds (silently
clipping when the rectangle exceeds the raw screenshot bounds), and when the
nonnegative viewport rectangle lies within the bounds of the raw screenshot
the cropped image has dimensions exactly (viewport.height, viewport.width). -/
theorem crop_dims :
    (∀ (α : Type) (img : List (List α)) (v : PyRect),
      v.x.den = 1 → v.y.den = 1 → v.width.den = 1 → v.height.den = 1 →
      (WebEnv.screenshotCrop img v).isOk = true) ∧
    (∀ (α : Type) (img : List (List α)) (W : ℕ) (v : PyRect),
      v.x.den = 1 → v.y.den = 1 → v.width.den = 1 → v.height.den = 1 →
      0 ≤ v.x.num → 0 ≤ v.y.num → 0 ≤ v.width.num → 0 ≤ v.height.num →
      (∀ row ∈ img, row.length = W) →
      v.y.num + v.height.num ≤ (img.length : ℤ) →
      v.x.num + v.width.num ≤ (W : ℤ) →
      (WebEnv.screenshotCrop img v).toOption.map
          (fun r => (r.length, r.map List.length)) =
        some (v.height.num.toNat,
              List.replicate v.height.num.toNat v.width.num.toNat)) := by
  constructor
  · intro α img v hx hy hw hh
    unfold WebEnv.screenshotCrop
    rw [if_pos ⟨hx, hy, hw, hh⟩]
    rfl
  · intro α img W v hx hy hw hh hx0 hy0 hw0 hh0 hrect hyb hxb
    unfold WebEnv.screenshotCrop
    rw [if_pos ⟨hx, hy, hw, hh⟩]
    have hrows : (pySlice img v.y.num (v.y.num + v.height.num)).length =
        v.height.num.toNat := by
      rw [pySlice_length img _ _ hy0 (by omega)]
      omega
    simp only [Except.toOption, Option.map_some', Option.some.injEq, Prod.mk.injEq]
    refine ⟨?_, ?_⟩
    · rw [List.length_map, hrows]
    · rw [List.map_map, List.eq_replicate_iff]
      refine ⟨by rw [List.length_map, hrows], ?_⟩
      intro b hb
      simp only [List.mem_map, Function.comp_apply] at hb
      obtain ⟨row, hrow, rfl⟩ := hb
      have hW : row.length = W := hrect row (pySlice_mem hrow)
      rw [pySlice_length row _ _ hx0 (by omega), hW]
      omega

/-- C5 witness: crop_dims applied to a concrete 2 by 2 image, once with an
out-of-bounds integral viewport (still succeeds) and once with an in-bounds
viewport of width 2 and height 2 (dimensions exactly (2, 2)). -/
theorem crop_dims_inst :
    (3 : ℚ).den = 1 ∧
    (WebEnv.screenshotCrop [[(1 : ℕ), 2], [3, 4]] ⟨0, 0, 3, 3⟩).isOk = true ∧
    (WebEnv.screenshotCrop [[(1 : ℕ), 2], [3, 4]] ⟨0, 0, 2, 2⟩).toOption.map
        (fun r => (r.length, r.map List.length)) =
      some ((2 : ℚ).num.toNat, List.replicate (2 : ℚ).num.toNat (2 : ℚ).num.toNat) :=
  ⟨by decide,
   crop_dims.1 ℕ [[1, 2], [3, 4]] ⟨0, 0, 3, 3⟩ (by decide) (by decide) (by decide)
     (by decide),
   crop_dims.2 ℕ [[1, 2], [3, 4]] 2 ⟨0, 0, 2, 2⟩ (by decide) (by decide) (by decide)
     (by decide) (by decide) (by decide) (by decide) (by decide) (by decide)
     (by decide) (by decide)⟩

/-- A DOM element for the selector builder: tagName, id attribute (the empty
string when absent, which is falsy in JS) and element children in document
order. -/
inductive DomNode where
  | mk (tag : String) (idA : String) (children : List DomNode)

/-- The tagName of a DOM element. -/
def DomNode.tag : DomNode → String
  | .mk t _ _ => t

/-- The id attribute of a DOM element, empty when absent. -/
def DomNode.id : DomNode → String
  | .mk _ i _ => i

/-- The element children of a DOM element, in document order. -/
def DomNode.children : DomNode → List DomNode
  | .mk _ _ cs => cs

/-- The element reached from a node by a path of child indices; an element of
the document is identified by its path from the document root element. -/
def getNode : List ℕ → DomNode → Option DomNode
  | [], n => some n
  | i :: p, n =>
    match n.children[i]? with
    | some c => getNode p c
    | none => none

/-- JS String.toLowerCase on a tag name, written as a per-character map so
that it evaluates by kernel reduction. -/
def toLowerCase (s : String) : String := ⟨s.data.map Char.toLower⟩

/-- One non-root path segment of fullPath: lowercase tag plus nth-child(c)
where c is one plus the number of preceding element siblings. -/
def nthChildSeg (tag : String) (c : ℕ) : String :=
  toLowerCase tag ++ ":nth-child(" ++ toString c ++ ")"

/-- The while loop of the JS fullPath function, walking from the element at
path p toward the document root and prepending segments to names: a non-empty
id stops the walk with #id prepended; the document root element contributes
its lowercase tag (its parentNode, the document, then ends the loop); any
other element contributes tag:nth-child(c), c counted via
previousElementSibling, and the walk continues at the parent. -/
def upSegs (root : DomNode) (p : List ℕ) (names : List String) :
    Option (List String) :=
  match getNode p root with
  | none => none
  | some el =>
    if el.id ≠ "" then some (("#" ++ el.id) :: names)
    else if hp : p = [] then some (toLowerCase el.tag :: names)
    else upSegs root p.dropLast (nthChildSeg el.tag (p.getLast hp + 1) :: names)
termination_by p.length
decreasing_by
  simp only [List.length_dropLast]
  have h0 : 0 < p.length := List.length_pos.mpr hp
  omega

/-- fullPath(el): the collected segments joined with the separator. -/
def fullPath (root : DomNode) (p : List ℕ) : Option String :=
  (upSegs root p []).map (fun names => String.intercalate " > " names)

/-- The id attribute of the element at a path, empty when the path resolves
to no element. -/
def idAt (root : DomNode) (q : List ℕ) : String :=
  ((getNode q root).map DomNode.id).getD ""

/-- The nth-child segment the claim predicts for the ancestor at depth k of
the element at path p (k between 1 and the length of p). -/
def nthSegAt (root : DomNode) (p : List ℕ) (k : ℕ) : String :=
  match getNode (p.take k) root, p[k - 1]? with
  | some n, some i => nthChildSeg n.tag (i + 1)
  | _, _ => ""

lemma getNode_concat (q : List ℕ) (i : ℕ) :
    ∀ root : DomNode,
      getNode (q ++ [i]) root = (getNode q root).bind (fun n => n.children[i]?) := by
  induction q with
  | nil =>
    intro root
    cases h : root.children[i]? with
    | none => simp [getNode, h]
    | some c => simp [getNode, h]
  | cons j q ih =>
    intro root
    cases h : root.children[j]? with
    | none => simp [getNode, h]
    | some c => simp [getNode, h, ih c]

lemma upSegs_unfold (root : DomNode) (p : List ℕ) (names : List String)
    (el : DomNode) (hel : getNode p root = some el) :
    upSegs root p names =
      if el.id ≠ "" then some (("#" ++ el.id) :: names)
      else if hp : p = [] then some (toLowerCase el.tag :: names)
      else upSegs root p.dropLast (nthChildSeg el.tag (p.getLast hp + 1) :: names) := by
  rw [upSegs, hel]

lemma idAt_of_getNode {root el : DomNode} {p : List ℕ}
    (hel : getNode p root = some el) : idAt root p = el.id := by
  unfold idAt
  rw [hel]
  rfl

lemma nthSegAt_concat (root : DomNode) (as : List ℕ) (a : ℕ) (j : ℕ)
    (h1 : 1 ≤ j) (h2 : j ≤ as.length) :
    nthSegAt root (as ++ [a]) j = nthSegAt root as j := by
  unfold nthSegAt
  rw [List.take_append_of_le_length h2, List.getElem?_append_left (by omega)]

lemma upSegs_stop :
    ∀ (p : List ℕ) (root el : DomNode) (acc : List String) (k : ℕ),
      getNode p root = some el → k ≤ p.length →
      idAt root (p.take k) ≠ "" →
      (∀ j, k < j → j ≤ p.length → idAt root (p.take j) = "") →
      upSegs root p acc = some (("#" ++ idAt root (p.take k)) ::
        ((List.range' (k + 1) (p.length - k)).map (nthSegAt root p) ++ acc)) := by
  intro p
  induction p using List.reverseRecOn with
  | nil =>
    intro root el acc k hel hk hid _hrest
    have hk0 : k = 0 := Nat.le_zero.mp hk
    subst hk0
    have hroot : idAt root [] = root.id := idAt_of_getNode rfl
    rw [upSegs_unfold root [] acc root rfl]
    have hid' : root.id ≠ "" := by simpa [hroot] using hid
    rw [if_pos hid']
    simp [hroot]
  | append_singleton as a ih =>
    intro root el acc k hel hk hid hrest
    have hlen : (as ++ [a]).length = as.length + 1 := by simp
    have hel' := hel
    rw [getNode_concat] at hel'
    obtain ⟨parent, hpar, hchild⟩ := Option.bind_eq_some.mp hel'
    rcases Nat.lt_or_ge k (as.length + 1) with hklt | hkge
    · -- k is below the element: its id is empty here and the walk recurses
      have hkle : k ≤ as.length := by omega
      have htakek : (as ++ [a]).take k = as.take k :=
        List.take_append_of_le_length hkle
      have htakeall : (as ++ [a]).take (as.length + 1) = as ++ [a] := by
        rw [show as.length + 1 = (as ++ [a]).length by simp, List.take_length]
      have helid : el.id = "" := by
        have h1 := hrest (as.length + 1) (by omega) (by simp)
        rw [htakeall, idAt_of_getNode hel] at h1
        exact h1
      rw [upSegs_unfold root (as ++ [a]) acc el hel, if_neg (by simp [helid])]
      rw [dif_neg (by simp)]
      have hdl : (as ++ [a]).dropLast = as := List.dropLast_concat
      have hgl : (as ++ [a]).getLast (by simp) = a := List.getLast_concat as
      rw [hdl, hgl]
      have hid' : idAt root (as.take k) ≠ "" := by rw [← htakek]; exact hid
      have hrest' : ∀ j, k < j → j ≤ as.length → idAt root (as.take j) = "" := by
        intro j hkj hjle
        have h2 := hrest j hkj (by omega)
        rwa [List.take_append_of_le_length hjle] at h2
      rw [ih root parent _ k hpar hkle hid' hrest']
      have hseg : nthSegAt root (as ++ [a]) (as.length + 1) =
          nthChildSeg el.tag (a + 1) := by
        unfold nthSegAt
        rw [htakeall, hel]
        have ha : (as ++ [a])[as.length + 1 - 1]? = some a := by simp
        rw [ha]
      have hmapeq : (List.range' (k + 1) (as.length - k)).map (nthSegAt root (as ++ [a])) =
          (List.range' (k + 1) (as.length - k)).map (nthSegAt root as) := by
        apply List.map_congr_left
        intro j hj
        rw [List.mem_range'_1] at hj
        exact nthSegAt_concat root as a j (by omega) (by omega)
      have hrange : List.range' (k + 1) ((as ++ [a]).length - k) =
          List.range' (k + 1) (as.length - k) ++ [as.length + 1] := by
        rw [hlen, show as.length + 1 - k = (as.length - k) + 1 by omega,
          List.range'_concat]
        congr 2
        omega
      rw [htakek, hrange, List.map_append, hmapeq]
      simp [hseg]
    · -- k names the element itself: it carries the id and the walk stops
      have hk' : k = as.length + 1 := by omega
      subst hk'
      have htakeall : (as ++ [a]).take (as.length + 1) = as ++ [a] := by
        rw [show as.length + 1 = (as ++ [a]).length by simp, List.take_length]
      rw [htakeall] at hid ⊢
      have hida : idAt root (as ++ [a]) = el.id := idAt_of_getNode hel
      rw [upSegs_unfold root (as ++ [a]) acc el hel, if_pos (by rwa [hida] at hid)]
      rw [hida, hlen]
      simp

lemma upSegs_noid :
    ∀ (p : List ℕ) (root el : DomNode) (acc : List String),
      getNode p root = some el →
      (∀ j, j ≤ p.length → idAt root (p.take j) = "") →
      upSegs root p acc = some (toLowerCase root.tag ::
        ((List.range' 1 p.length).map (nthSegAt root p) ++ acc)) := by
  intro p
  induction p using List.reverseRecOn with
  | nil =>
    intro root el acc hel hall
    have hroot : idAt root [] = root.id := idAt_of_getNode rfl
    have hid0 : root.id = "" := by
      have h0 := hall 0 (by omega)
      simpa [hroot] using h0
    rw [upSegs_unfold root [] acc root rfl, if_neg (by simp [hid0]), dif_pos rfl]
    simp
  | append_singleton as a ih =>
    intro root el acc hel hall
    have hlen : (as ++ [a]).length = as.length + 1 := by simp
    have hel' := hel
    rw [getNode_concat] at hel'
    obtain ⟨parent, hpar, hchild⟩ := Option.bind_eq_some.mp hel'
    have htakeall : (as ++ [a]).take (as.length + 1) = as ++ [a] := by
      rw [show as.length + 1 = (as ++ [a]).length by simp, List.take_length]
    have helid : el.id = "" := by
      have h1 := hall (as.length + 1) (by simp)
      rw [htakeall, idAt_of_getNode hel] at h1
      exact h1
    rw [upSegs_unfold root (as ++ [a]) acc el hel, if_neg (by simp [helid]),
      dif_neg (by simp)]
    have hdl : (as ++ [a]).dropLast = as := List.dropLast_concat
    have hgl : (as ++ [a]).getLast (by simp) = a := List.getLast_concat as
    rw [hdl, hgl]
    have hall' : ∀ j, j ≤ as.length → idAt root (as.take j) = "" := by
      intro j hj
      have h2 := hall j (by simp; omega)
      rwa [List.take_append_of_le_length hj] at h2
    rw [ih root parent _ hpar hall']
    have hseg : nthSegAt root (as ++ [a]) (as.length + 1) =
        nthChildSeg el.tag (a + 1) := by
      unfold nthSegAt
      rw [htakeall, hel]
      have ha : (as ++ [a])[as.length + 1 - 1]? = some a := by simp
      rw [ha]
    have hmapeq : (List.range' 1 as.length).map (nthSegAt root (as ++ [a])) =
        (List.range' 1 as.length).map (nthSegAt root as) := by
      apply List.map_congr_left
      intro j hj
      rw [List.mem_range'_1] at hj
      exact nthSegAt_concat root as a j (by omega) (by omega)
    have hrange : List.range' 1 ((as ++ [a]).length) =
        List.range' 1 as.length ++ [as.length + 1] := by
      rw [hlen, List.range'_concat]
      congr 2
      omega
    rw [hrange, List.map_append, hmapeq]
    simp [hseg]

/-- C6: the selector of the element at path p in the document rooted at root.
If the element itself has a non-empty id the whole selector is exactly #id.
If no element on the chain from the element to the document root has an id,
the selector is the lowercase root tag followed by one
tag:nth-child(index + 1) segment per ancestor level, joined by the separator.
In general, if the first id found walking up sits at depth k, the selector
starts with that #id and carries only the segments strictly below it. -/
theorem fullPath_spec (root : DomNode) (p : List ℕ) (el : DomNode)
    (hel : getNode p root = some el) :
    (el.id ≠ "" → fullPath root p = some ("#" ++ el.id)) ∧
    ((∀ j, j ≤ p.length → idAt root (p.take j) = "") →
      fullPath root p = some (String.intercalate " > "
        (toLowerCase root.tag :: (List.range' 1 p.length).map (nthSegAt root p)))) ∧
    (∀ k, k ≤ p.length → idAt root (p.take k) ≠ "" →
      (∀ j, k < j → j ≤ p.length → idAt root (p.take j) = "") →
      fullPath root p = some (String.intercalate " > "
        (("#" ++ idAt root (p.take k)) ::
          (List.range' (k + 1) (p.length - k)).map (nthSegAt root p)))) := by
  refine ⟨?_, ?_, ?_⟩
  · intro hid
    have h := upSegs_stop p root el [] p.length hel (le_refl _)
      (by rw [List.take_length, idAt_of_getNode hel]; exact hid)
      (fun j h1 h2 => by omega)
    unfold fullPath
    rw [h]
    simp [List.take_length, idAt_of_getNode hel]
    rfl
  · intro hall
    have h := upSegs_noid p root el [] hel hall
    unfold fullPath
    rw [h]
    simp
  · intro k hk hid hrest
    have h := upSegs_stop p root el [] k hel hk hid hrest
    unfold fullPath
    rw [h]
    simp

/-- The demo document: html > body with two div children, the second div
carrying id foo, so that div is nested three levels deep. -/
def demoDom : DomNode :=
  .mk "HTML" "" [.mk "BODY" "" [.mk "DIV" "" [], .mk "DIV" "foo" []]]

/-- C6 witness: in the demo document the div with id foo (path [0, 1], three
levels deep) gets the selector #foo and nothing above it, while its id-less
sibling (path [0, 0]) gets the full nth-child chain rooted at the lowercase
document root tag, which evaluates to the expected concrete string. -/
theorem fullPath_spec_inst :
    getNode [0, 1] demoDom = some (DomNode.mk "DIV" "foo" []) ∧
    (DomNode.mk "DIV" "foo" []).id ≠ "" ∧
    fullPath demoDom [0, 1] = some "#foo" ∧
    fullPath demoDom [0, 0] = some (String.intercalate " > "
      (toLowerCase demoDom.tag ::
        (List.range' 1 ([0, 0] : List ℕ).length).map (nthSegAt demoDom [0, 0]))) ∧
    String.intercalate " > "
      (toLowerCase demoDom.tag ::
        (List.range' 1 ([0, 0] : List ℕ).length).map (nthSegAt demoDom [0, 0])) =
      "html > body:nth-child(1) > div:nth-child(1)" :=
  ⟨rfl, by decide,
   (fullPath_spec demoDom [0, 1] (DomNode.mk "DIV" "foo" []) rfl).1 (by decide),
   (fullPath_spec demoDom [0, 0] (DomNode.mk "DIV" "" []) rfl).2.1 (by decide),
   rfl⟩
